import Mathlib

/-!
Verification of the septafs virtual filesystem core (package `septa`):
shallow embedding of `api.go` and `fs.go` together with theorems about
the formatting, decoding, markup stripping, tree construction and
lookup behaviour of the code.

Machine integers are modelled as `Nat`/`Int` (with explicit `% 2 ^ 64`
where the Go code computes in `uint64`); Go `float64` values are
modelled denotationally as `ℚ`; fallible Go functions returning
`(T, error)` are modelled as `Except String T` (or as an explicit
pair where the Go code inspects both results).
-/

namespace Septa

/-! ## Content formatting for the `locations` file (`api.go`, `fs.go`) -/

/-- Decidable equality for `Except`, used to evaluate embedded fallible
operations at concrete inputs. -/
instance {ε α : Type} [DecidableEq ε] [DecidableEq α] : DecidableEq (Except ε α) :=
  fun x y =>
    match x, y with
    | .ok a, .ok b =>
      if h : a = b then isTrue (by rw [h])
      else isFalse (fun c => h (Except.ok.inj c))
    | .error a, .error b =>
      if h : a = b then isTrue (by rw [h])
      else isFalse (fun c => h (Except.error.inj c))
    | .ok _, .error _ => isFalse (fun c => Except.noConfusion c)
    | .error _, .ok _ => isFalse (fun c => Except.noConfusion c)

/-- Six decimal digits of `n % 10 ^ 6`, zero padded to width 6. -/
def padSixDigits (n : Nat) : String :=
  Nat.repr (n / 100000 % 10) ++ Nat.repr (n / 10000 % 10) ++
  Nat.repr (n / 1000 % 10) ++ Nat.repr (n / 100 % 10) ++
  Nat.repr (n / 10 % 10) ++ Nat.repr (n % 10)

/-- Round the fraction `num / den` (with `den ≠ 0`) to the nearest
natural number, ties to even: the rounding used when a binary `float64`
is printed with `%f` at a tie. -/
def roundHalfEvenFrac (num den : Nat) : Nat :=
  let f := num / den
  let r2 := 2 * (num % den)
  if r2 < den then f
  else if den < r2 then f + 1
  else if f % 2 = 0 then f else f + 1

/-- Denotational model of `fmt`'s `%f` verb at its default precision 6,
as used by `BusTrolley.String` in `api.go`: sign, integer part, `.`,
six rounded decimal digits. -/
def formatFloat6 (q : ℚ) : String :=
  let sign := if q.num < 0 then "-" else ""
  let m := roundHalfEvenFrac (q.num.natAbs * 1000000) q.den
  sign ++ Nat.repr (m / 1000000) ++ "." ++ padSixDigits (m % 1000000)

/-- `BusTrolley` from `api.go`: the decoded position of a bus or trolley.
`Lat`/`Lng` model the `float64` fields, `LastRead` the `int` field. -/
structure BusTrolley where
  Lat : ℚ
  Lng : ℚ
  LastRead : ℤ
  Direction : String
  Destination : String
  deriving DecidableEq

/-- `BusTrolley.String` from `api.go`: `fmt.Sprintf` of the raw template
`Latitude: %f\nLongitude: %f\nDirection: %s\nDestination: %s\nLastRead: %d minutes ago\n`. -/
def BusTrolley.string (bt : BusTrolley) : String :=
  "Latitude: " ++ formatFloat6 bt.Lat ++
  "\nLongitude: " ++ formatFloat6 bt.Lng ++
  "\nDirection: " ++ bt.Direction ++
  "\nDestination: " ++ bt.Destination ++
  "\nLastRead: " ++ Int.repr bt.LastRead ++ " minutes ago\n"

/-- The formatting loop of `busTrolleyLocation.ReadAll` in `fs.go`:
for each position, `btBytes := []byte(bt.String())`, then
`btBytes = append(btBytes, '\n')`, then `b = append(b, btBytes...)`. -/
def busTrolleyLocationFormat (ret : List BusTrolley) : String :=
  ret.foldl (fun b bt => b ++ (bt.string ++ "\n")) ""

/-- `busTrolleyLocation.ReadAll` from `fs.go`, given the result of the
`client.TransitView` fetch: a fetch error is returned unchanged,
otherwise the formatted vehicle list is the content. -/
def busTrolleyLocationReadAll (fetched : Except String (List BusTrolley)) :
    Except String String :=
  match fetched with
  | .error e => .error e
  | .ok ret => .ok (busTrolleyLocationFormat ret)

/-! ## Content formatting for the `alerts` file (`fs.go`) -/

/-- `RouteAlert` from `api.go`: an alert on a SEPTA route. -/
structure RouteAlert where
  RouteName : String
  CurrentMessage : String
  AdvisoryMessage : String
  deriving DecidableEq

/-- One message loop of `routeAlerts.ReadAll` in `fs.go`: for index `i`
and alert `alert`, emit `f alert` followed by a newline exactly when
`i + 1 < len`. -/
def alertMessagesLoop (f : RouteAlert → String) (len : Nat) :
    Nat → List RouteAlert → String
  | _, [] => ""
  | i, alert :: rest =>
      (f alert ++ if i + 1 < len then "\n" else "") ++
        alertMessagesLoop f len (i + 1) rest

/-- The body of `routeAlerts.ReadAll` in `fs.go` after a successful
fetch: the current-alerts header, the current messages, the advisories
header, the advisory messages. -/
def routeAlertsFormat (rts : List RouteAlert) : String :=
  "CURRENT ALERTS:\n\n" ++
    alertMessagesLoop (·.CurrentMessage) rts.length 0 rts ++
  "ADVISORIES:\n\n" ++
    alertMessagesLoop (·.AdvisoryMessage) rts.length 0 rts

/-- Messages joined by a single newline, no trailing newline after the
last: the shape the specification describes for each alert section. -/
def joinByNewline : List String → String
  | [] => ""
  | [m] => m
  | m :: rest => m ++ "\n" ++ joinByNewline rest

/-! ## Regular-expression model for the fixed pattern of `traverseHTML` -/

/-- One atom of a compiled regular expression in the syntax fragment the
package uses: a literal character, possibly under a postfix greedy `*`
(zero or more) or `?` (zero or one). -/
inductive ReAtom where
  | lit (c : Char)
  | star (c : Char)
  | opt (c : Char)
  deriving DecidableEq

/-- Model of `regexp.Compile` on the RE2 fragment exercised by the
package: a sequence of characters, each optionally followed by a
postfix `*` or `?`. A repetition operator with no preceding atom is
rejected, as RE2 rejects it. -/
def compileAtoms : List Char → Except String (List ReAtom)
  | [] => .ok []
  | '*' :: _ => .error "missing argument to repetition operator"
  | '?' :: _ => .error "missing argument to repetition operator"
  | '+' :: _ => .error "missing argument to repetition operator"
  | c :: '*' :: rest => (compileAtoms rest).map (ReAtom.star c :: ·)
  | c :: '?' :: rest => (compileAtoms rest).map (ReAtom.opt c :: ·)
  | c :: rest => (compileAtoms rest).map (ReAtom.lit c :: ·)

/-- Greedy matching of `c*` followed by a continuation `k` for the rest
of the pattern: consume as many `c` as possible, backtracking one at a
time when the continuation fails, following the preference order of
the Go regexp engine. -/
def matchStar (c : Char) (k : List Char → Option (List Char)) :
    List Char → Option (List Char)
  | [] => k []
  | x :: s =>
      if x = c then
        match matchStar c k s with
        | some r => some r
        | none => k (x :: s)
      else k (x :: s)

/-- Match an atom sequence against a prefix of the input with the Go
engine's greedy preference order; returns the remainder of the input
after the preferred match, if any match starts at the first
character. -/
def matchAtoms : List ReAtom → List Char → Option (List Char)
  | [], s => some s
  | .lit _ :: _, [] => none
  | .lit c :: as, x :: s => if x = c then matchAtoms as s else none
  | .star c :: as, s => matchStar c (matchAtoms as) s
  | .opt _ :: as, [] => matchAtoms as []
  | .opt c :: as, x :: s =>
      if x = c then
        match matchAtoms as s with
        | some r => some r
        | none => matchAtoms as (x :: s)
      else matchAtoms as (x :: s)

/-- The scan of `re.ReplaceAllString s ""`: delete each successive
leftmost match, advancing one character past an empty match as the Go
engine does. Fuel counts scan steps; each step either emits or deletes
at least one character, so `s.length` steps suffice and the fuel-out
branch (which returns the rest unchanged) is never taken when started
with fuel `s.length`. -/
def replaceAllGo (as : List ReAtom) : Nat → List Char → List Char
  | 0, s => s
  | _ + 1, [] => []
  | fuel + 1, x :: s =>
    match matchAtoms as (x :: s) with
    | some r =>
        if r.length = s.length + 1 then x :: replaceAllGo as fuel s
        else replaceAllGo as fuel r
    | none => x :: replaceAllGo as fuel s

/-- `re.ReplaceAllString s ""` for a compiled pattern `as`. -/
def replaceAll (as : List ReAtom) (s : List Char) : List Char :=
  replaceAllGo as s.length s

/-- The fixed pattern string `"\n\t* ?"` compiled on every call of
`traverseHTML` in `api.go`. -/
def stripPattern : List Char := ['\n', '\t', '*', ' ', '?']

/-- Drop one leading space, if present: the effect of the greedy ` ?`
tail of the pattern. -/
def dropOneSpace : List Char → List Char
  | [] => []
  | c :: s => if c = ' ' then s else c :: s

/-- The specification's description of text collapsing, as a two-state
scan: in the `false` state characters pass through until a newline
starts a run; in the `true` state (inside a run) tabs are consumed, an
optional single space ends the run, a further newline continues a new
run, and any other character ends the run and passes through. Each
removed run is exactly one newline, zero or more tabs, and an optional
one space. -/
def collapseGo : Bool → List Char → List Char
  | _, [] => []
  | false, c :: s => if c = '\n' then collapseGo true s else c :: collapseGo false s
  | true, c :: s =>
    if c = '\t' then collapseGo true s
    else if c = ' ' then collapseGo false s
    else if c = '\n' then collapseGo true s
    else c :: collapseGo false s

/-- Remove every run matching `newline, zero or more tabs, optional one
space` from the text. -/
def collapseRuns (s : List Char) : List Char :=
  collapseGo false s

/-! ## Markup parse tree and the stripping walk (`api.go`) -/

/-- The node types of the markup parse tree (`html.NodeType`). -/
inductive HNodeType where
  | err
  | text
  | document
  | element
  | comment
  | doctype
  deriving DecidableEq

mutual
/-- A node of the markup parse tree (`*html.Node`): its type, its
`Data` field, and its children in document order. -/
inductive HNode where
  | mk (ty : HNodeType) (data : String) (children : HForest)

/-- The children of a markup node, in document order (the
`FirstChild`/`NextSibling` chain). -/
inductive HForest where
  | nil
  | cons (n : HNode) (f : HForest)
end

mutual
/-- `HTTPClient.traverseHTML` from `api.go`: compile the fixed pattern
(on every call, as the source does), write the collapsed text of a
text node, mark `p`/`h3` elements for a trailing newline, traverse the
children in document order, then append the newline if marked. -/
def traverseHTML : HNode → Except String (List Char)
  | .mk ty data children =>
    match compileAtoms stripPattern with
    | .error e => .error e
    | .ok re =>
      match traverseForest children with
      | .error e => .error e
      | .ok body =>
        .ok ((match ty with
              | .text => replaceAll re data.data
              | _ => []) ++ body ++
             (match ty with
              | .element => if data = "p" ∨ data = "h3" then ['\n'] else []
              | _ => []))

/-- The child loop of `traverseHTML`: traverse each child in order,
stopping at the first error, and concatenate the rendered text. -/
def traverseForest : HForest → Except String (List Char)
  | .nil => .ok []
  | .cons n f =>
    match traverseHTML n with
    | .error e => .error e
    | .ok t =>
      match traverseForest f with
      | .error e => .error e
      | .ok r => .ok (t ++ r)
end

/-- `HTTPClient.stripHTML` from `api.go`, with the external
`html.Parse` supplied as a parameter: parse the string into a tree,
then run the stripping walk. -/
def stripHTML (parse : String → Except String HNode) (s : String) :
    Except String (List Char) :=
  match parse s with
  | .error e => .error e
  | .ok n => traverseHTML n

/-! ## The error flow of `RouteAlerts` (`api.go`) -/

/-- The result of `json.Unmarshal` into `[]RouteAlert` as used by
`RouteAlerts` in `api.go`. Go's decoder can return both a partially
filled slice and a non-nil error: on an `UnmarshalTypeError` for one
array element it records the error and still decodes the remaining
elements. -/
structure UnmarshalAlerts where
  alerts : List RouteAlert
  unmarshalErr : Option String

/-- The strip loop of `RouteAlerts` in `api.go`, tracking the value of
the `err` variable: each loop iteration assigns `err` from
`stripHTML`, returning early when it is non-nil, so an `err` value
entering the loop is overwritten by the first iteration. -/
def routeAlertsStripLoop (parse : String → Except String HNode) :
    Option String → List RouteAlert → Option String
  | e, [] => e
  | _, a :: rest =>
      match stripHTML parse a.AdvisoryMessage with
      | .error e => some e
      | .ok _ =>
        match stripHTML parse a.CurrentMessage with
        | .error e => some e
        | .ok _ => routeAlertsStripLoop parse none rest

/-- The error returned by `RouteAlerts` in `api.go` given the outcome of
`json.Unmarshal`: the unchecked `err = json.Unmarshal(ret, &rts)`
flows into the strip loop, which overwrites it. -/
def routeAlertsErrFlow (parse : String → Except String HNode)
    (decoded : UnmarshalAlerts) : Option String :=
  routeAlertsStripLoop parse decoded.unmarshalErr decoded.alerts

/-! ## Decoding of position records (`api.go`) -/

/-- The numeric value of a list of decimal digit characters. -/
def digitsVal (ds : List Char) : Nat :=
  ds.foldl (fun a c => a * 10 + (c.toNat - 48)) 0

/-- Split an optional leading sign: `true` marks a minus sign. -/
def splitSign : List Char → Bool × List Char
  | '-' :: rest => (true, rest)
  | '+' :: rest => (false, rest)
  | cs => (false, cs)

/-- Parse an exponent suffix body (after `e`/`E`): optional sign and at
least one digit; returns the exponent and the unconsumed rest. -/
def parseExpPart (cs : List Char) : Option Int × List Char :=
  let (eneg, cs1) := splitSign cs
  let ds := cs1.takeWhile Char.isDigit
  let rest := cs1.dropWhile Char.isDigit
  if ds.isEmpty then (none, rest)
  else (some (if eneg then -(digitsVal ds : Int) else (digitsVal ds : Int)), rest)

/-- The rational value `sign * (ip.fp) * 10 ^ e` of a parsed decimal. -/
def decimalVal (neg : Bool) (ip fp fracLen : Nat) (e : Int) : ℚ :=
  let mant : Int := (ip * 10 ^ fracLen + fp : Nat)
  let mant : Int := if neg then -mant else mant
  let net : Int := e - fracLen
  if 0 ≤ net then Rat.ofInt (mant * 10 ^ net.toNat)
  else Rat.divInt mant (10 ^ (-net).toNat)

/-- Denotational model of `strconv.ParseFloat(s, 64)` on its decimal
grammar (optional sign, digits with an optional dot, optional
decimal exponent; at least one mantissa digit; nothing left over),
with the value taken exactly in `ℚ`. The non-decimal forms the feed
never uses (inf, nan, hex mantissas) are outside the model. -/
def parseFloatQ (s : String) : Option ℚ :=
  let (neg, cs1) := splitSign s.data
  let intDs := cs1.takeWhile Char.isDigit
  let cs2 := cs1.dropWhile Char.isDigit
  let (fracDs, cs3) :=
    match cs2 with
    | '.' :: rest => (rest.takeWhile Char.isDigit, rest.dropWhile Char.isDigit)
    | _ => ([], cs2)
  if intDs.isEmpty ∧ fracDs.isEmpty then none
  else
    let (exp, cs4) :=
      match cs3 with
      | 'e' :: rest => parseExpPart rest
      | 'E' :: rest => parseExpPart rest
      | _ => (some 0, cs3)
    match exp with
    | none => none
    | some e =>
      if cs4.isEmpty then
        some (decimalVal neg (digitsVal intDs) (digitsVal fracDs) fracDs.length e)
      else none

/-- Model of `strconv.Atoi` (= `strconv.ParseInt(s, 10, 0)` with 64-bit
`int`): optional sign, at least one digit, digits only, value within
the signed 64-bit range. -/
def atoiModel (s : String) : Option Int :=
  let (neg, cs1) := splitSign s.data
  if cs1.isEmpty then none
  else if cs1.all Char.isDigit then
    let v : Int := (digitsVal cs1 : Nat)
    let v := if neg then -v else v
    if v < -(2 ^ 63) ∨ 2 ^ 63 - 1 < v then none else some v
  else none

/-- The wire form of one position record as `BusTrolley.UnmarshalJSON`
sees it: `lat`, `lng` and `Offset` arrive as JSON strings, `Direction`
and `destination` as plain strings. -/
structure BusTrolleyWire where
  lat : String
  lng : String
  Offset : String
  direction : String
  destination : String
  deriving DecidableEq

/-- `BusTrolley.UnmarshalJSON` from `api.go` (with the two helper
unmarshallers `floatFromString` and `intFromString`): each quoted
numeric field is parsed, the first failing field aborts decoding with
its error (a custom unmarshaller's error is fatal in `encoding/json`),
and the plain string fields pass through. Fields are processed in the
record's document order, which the feed fixes as lat, lng, Offset. -/
def busTrolleyUnmarshal (w : BusTrolleyWire) : Except String BusTrolley :=
  match parseFloatQ w.lat with
  | none => .error "DecodeError: invalid lat"
  | some la =>
    match parseFloatQ w.lng with
    | none => .error "DecodeError: invalid lng"
    | some ln =>
      match atoiModel w.Offset with
      | none => .error "DecodeError: invalid Offset"
      | some off =>
        .ok { Lat := la, Lng := ln, LastRead := off,
              Direction := w.direction, Destination := w.destination }

/-! ## The filesystem tree (`fs.go`) -/

/-- One step of the 64-bit FNV-1a hash. -/
def fnvStep (h b : Nat) : Nat :=
  ((h ^^^ b) * 1099511628211) % (2 ^ 64)

/-- The 64-bit FNV-1a hash of a byte sequence. -/
def fnv64 (bytes : List Nat) : Nat :=
  bytes.foldl fnvStep 14695981039346656037

/-- The eight little-endian bytes of a 64-bit value. -/
def leBytes8 (n : Nat) : List Nat :=
  [n % 256, n / 2 ^ 8 % 256, n / 2 ^ 16 % 256, n / 2 ^ 24 % 256,
   n / 2 ^ 32 % 256, n / 2 ^ 40 % 256, n / 2 ^ 48 % 256, n / 2 ^ 56 % 256]

/-- The byte values of an (ASCII) name. -/
def strBytes (s : String) : List Nat :=
  s.data.map Char.toNat

/-- The zero-avoidance loop of `GenerateDynamicInode`: while the hash is
zero, feed one more byte `'x'` (value 120) into the hash. Fuel bounds
the loop; 64 steps is far more than the loop can ever take. -/
def gdiFix : Nat → Nat → Nat
  | 0, h => h
  | fuel + 1, h => if h = 0 then gdiFix fuel (fnvStep h 120) else h

/-- `fs.GenerateDynamicInode(parent, name)` from the `bazil.org/fuse/fs`
dependency (not part of this repository's sources): the FNV-1a hash of
the parent inode's eight little-endian bytes followed by the name's
bytes, rehashed with an extra byte while zero. -/
def generateDynamicInode (parent : Nat) (name : String) : Nat :=
  gdiFix 64 (fnv64 (leBytes8 parent ++ strBytes name))

/-- `busTrolleyLocation` from `fs.go`: the `locations` file node. -/
structure busTrolleyLocation where
  route : String
  inode : Nat
  deriving DecidableEq

/-- `routeAlerts` from `fs.go`: the `alerts` file node; `route` holds
the derived display name. -/
structure routeAlerts where
  route : String
  inode : Nat
  deriving DecidableEq

/-- `busTrolleyRoute` from `fs.go`: one route's directory node. -/
structure busTrolleyRoute where
  route : String
  inode : Nat
  isBus : Bool
  locationNode : busTrolleyLocation
  alertsNode : routeAlerts
  deriving DecidableEq

/-- `busTrolleyRoutes` from `fs.go`: a catalog directory; the
`routeNodes` map is modelled as the association list built by
`newBusTrolleyRoutes` (lookup is exact-match either way, and the
catalogs are duplicate-free). -/
structure busTrolleyRoutes where
  routeNodes : List (String × busTrolleyRoute)
  routeIDs : List String
  inode : Nat
  deriving DecidableEq

/-- `rootDir` from `fs.go`. -/
structure rootDir where
  trolleyNode : busTrolleyRoutes
  busNode : busTrolleyRoutes
  deriving DecidableEq

/-- `newBusTrolleyRoute` from `fs.go`: build a route directory node and
its two children, deriving the children's inodes from the route
node's inode and building the alert display name from the class
flag. -/
def newBusTrolleyRoute (route : String) (inode : Nat) (isBus : Bool) :
    busTrolleyRoute :=
  { route, inode, isBus,
    locationNode := { route, inode := generateDynamicInode inode "locations" },
    alertsNode :=
      { route := (if isBus then "bus_route_" else "trolley_route_") ++ route,
        inode := generateDynamicInode inode "alerts" } }

/-- `newBusTrolleyRoutes` from `fs.go`: build a catalog directory, one
route node per identifier, each route inode derived from the catalog
inode and the identifier. -/
def newBusTrolleyRoutes (routes : List String) (isBus : Bool) (inode : Nat) :
    busTrolleyRoutes :=
  { routeNodes := routes.map fun id =>
      (id, newBusTrolleyRoute id (generateDynamicInode inode id) isBus),
    routeIDs := routes,
    inode }

/-- `tRouteIDs` from `fs.go`. -/
def tRouteIDs : List String := ["10", "11", "13", "15", "34", "36", "101", "102"]

/-- `bRouteIDs` from `fs.go`. -/
def bRouteIDs : List String :=
  ["1", "2", "3", "4", "5", "6", "7", "8", "9", "12",
   "14", "16", "17", "18", "19", "20", "21", "22", "23", "24", "25", "26", "27",
   "28", "29", "30", "31", "32", "33", "35", "37", "38", "39", "40", "42", "43",
   "44", "46", "47", "47m", "48", "50", "52", "53", "54", "55", "56", "57", "58",
   "59", "60", "61", "62", "64", "65", "66", "67", "68", "70", "73", "75", "77",
   "78", "79", "80", "84", "88", "89", "G", "H", "XH", "J", "K", "L", "R", "LUCY",
   "90", "91", "92", "93", "94", "95", "96", "97", "98", "99", "103", "104",
   "105", "106", "107", "108", "109", "110", "111", "112", "113", "114", "115",
   "116", "117", "118", "119", "120", "123", "124", "125", "126", "127", "128",
   "129", "130", "131", "132", "133", "139", "150", "201", "204", "205", "206",
   "310"]

/-- `FS.Root` from `fs.go`: the root directory composed of the trolley
subtree (parent inode 2) and the bus subtree (parent inode 3). -/
def septaRoot : rootDir :=
  { trolleyNode := newBusTrolleyRoutes tRouteIDs false 2,
    busNode := newBusTrolleyRoutes bRouteIDs true 3 }

/-- The attribute record reported by a node's `Attr` method: inode,
directory flag (`os.ModeDir`), and permission bits. -/
structure FuseAttr where
  inode : Nat
  isDir : Bool
  perm : Nat
  deriving DecidableEq

/-- `rootDir.Attr` from `fs.go`: inode 1, `os.ModeDir | 0555`. -/
def rootDirAttr : FuseAttr :=
  { inode := 1, isDir := true, perm := 0o555 }

/-- `busTrolleyRoutes.Attr` from `fs.go`: the catalog directory reports
`os.ModeDir | 055` (sic: two octal digits in the source). -/
def busTrolleyRoutesAttr (r : busTrolleyRoutes) : FuseAttr :=
  { inode := r.inode, isDir := true, perm := 0o55 }

/-- `busTrolleyRoute.Attr` from `fs.go`: `os.ModeDir | 0555`. -/
def busTrolleyRouteAttr (r : busTrolleyRoute) : FuseAttr :=
  { inode := r.inode, isDir := true, perm := 0o555 }

/-- `busTrolleyLocation.Attr` from `fs.go`: mode `0444`. -/
def busTrolleyLocationAttr (v : busTrolleyLocation) : FuseAttr :=
  { inode := v.inode, isDir := false, perm := 0o444 }

/-- `routeAlerts.Attr` from `fs.go`: mode `0444`. -/
def routeAlertsAttr (r : routeAlerts) : FuseAttr :=
  { inode := r.inode, isDir := false, perm := 0o444 }

/-- The `fuse.Error` values the lookups produce. -/
inductive FuseErr where
  | ENOENT
  deriving DecidableEq

/-- An `fs.Node` result of a lookup: one of the node kinds of the
tree below the root. -/
inductive Node where
  | routes (r : busTrolleyRoutes)
  | route (r : busTrolleyRoute)
  | location (l : busTrolleyLocation)
  | alertsFile (a : routeAlerts)
  deriving DecidableEq

/-- `rootDir.Lookup` from `fs.go`: `trolley`, `bus`, else `ENOENT`. -/
def rootDirLookup (r : rootDir) (name : String) : Except FuseErr Node :=
  if name = "trolley" then .ok (.routes r.trolleyNode)
  else if name = "bus" then .ok (.routes r.busNode)
  else .error .ENOENT

/-- `busTrolleyRoutes.Lookup` from `fs.go`: exact-match lookup in the
route map, else `ENOENT`. -/
def busTrolleyRoutesLookup (r : busTrolleyRoutes) (name : String) :
    Except FuseErr Node :=
  match r.routeNodes.find? (fun p => p.1 == name) with
  | some p => .ok (.route p.2)
  | none => .error .ENOENT

/-- `busTrolleyRoute.Lookup` from `fs.go`: `locations`, `alerts`, else
`ENOENT`. -/
def busTrolleyRouteLookup (r : busTrolleyRoute) (name : String) :
    Except FuseErr Node :=
  if name = "locations" then .ok (.location r.locationNode)
  else if name = "alerts" then .ok (.alertsFile r.alertsNode)
  else .error .ENOENT

/-- The type tag of a directory entry (`fuse.Dirent.Type`). -/
inductive DirentType where
  | dir
  | file
  deriving DecidableEq

/-- A directory entry (`fuse.Dirent`). -/
structure Dirent where
  name : String
  type : DirentType
  deriving DecidableEq

/-- `rootDir.ReadDir` from `fs.go`. -/
def rootDirReadDir : List Dirent :=
  [{ name := "trolley", type := .dir }, { name := "bus", type := .dir }]

/-- `busTrolleyRoutes.ReadDir` from `fs.go`: the route identifiers in
catalog order, as directories. -/
def busTrolleyRoutesReadDir (r : busTrolleyRoutes) : List Dirent :=
  r.routeIDs.map fun id => { name := id, type := .dir }

/-- `busTrolleyRoute.ReadDir` from `fs.go`: exactly `locations` then
`alerts`, both files (the receiver is unused in the source). -/
def busTrolleyRouteReadDir (_ : busTrolleyRoute) : List Dirent :=
  [{ name := "locations", type := .file }, { name := "alerts", type := .file }]

/-- The inodes of a catalog subtree: the catalog directory, then for
each route node its inode and its two children's inodes. -/
def subtreeInodes (c : busTrolleyRoutes) : List Nat :=
  c.inode :: (c.routeNodes.map fun p =>
    [p.2.inode, p.2.locationNode.inode, p.2.alertsNode.inode]).flatten

/-- Every inode of the tree: the root, then the trolley subtree, then
the bus subtree. -/
def allInodes : List Nat :=
  1 :: (subtreeInodes septaRoot.trolleyNode ++ subtreeInodes septaRoot.busNode)

/-! ## Helper lemmas on strings -/

theorem str_ext {a b : String} (h : a.data = b.data) : a = b := by
  cases a
  cases b
  cases h
  rfl

theorem string_join_cons (s : String) (l : List String) :
    String.join (s :: l) = s ++ String.join l := by
  apply str_ext
  rw [String.data_join, String.data_append, String.data_join, List.map_cons,
    List.flatten_cons]

theorem busTrolleyLocationFormat_acc (ret : List BusTrolley) (acc : String) :
    ret.foldl (fun b bt => b ++ (bt.string ++ "\n")) acc =
      acc ++ String.join (ret.map fun bt => bt.string ++ "\n") := by
  induction ret generalizing acc with
  | nil =>
    rw [List.foldl_nil, List.map_nil]
    exact (String.append_empty acc).symm
  | cons bt rest ih =>
    rw [List.foldl_cons, ih, List.map_cons, string_join_cons, String.append_assoc]

theorem alertMessagesLoop_eq_join (f : RouteAlert → String)
    (rts : List RouteAlert) (i len : Nat) (h : i + rts.length = len) :
    alertMessagesLoop f len i rts = joinByNewline (rts.map f) := by
  induction rts generalizing i with
  | nil => simp [alertMessagesLoop, joinByNewline]
  | cons alert rest ih =>
    cases rest with
    | nil =>
      have hlt : ¬ (i + 1 < len) := by
        simp only [List.length_cons, List.length_nil] at h
        omega
      show (f alert ++ if i + 1 < len then "\n" else "") ++
          alertMessagesLoop f len (i + 1) [] = joinByNewline [f alert]
      rw [if_neg hlt]
      exact (String.append_empty (f alert ++ "")).trans (String.append_empty (f alert))
    | cons b rest2 =>
      have hlt : i + 1 < len := by
        simp only [List.length_cons] at h
        omega
      have hrec := ih (i + 1) (by simp only [List.length_cons] at h ⊢; omega)
      show (f alert ++ if i + 1 < len then "\n" else "") ++
          alertMessagesLoop f len (i + 1) (b :: rest2) =
          joinByNewline (List.map f (alert :: b :: rest2))
      rw [if_pos hlt, hrec]
      rfl

/-! ## Lemmas on the stripping pattern -/

theorem matchOptSpace (s : List Char) :
    matchAtoms [.opt ' '] s = some (dropOneSpace s) := by
  cases s with
  | nil => rfl
  | cons x s =>
    show (if x = ' ' then
        match matchAtoms [] s with
        | some r => some r
        | none => matchAtoms [] (x :: s)
      else matchAtoms [] (x :: s)) = some (dropOneSpace (x :: s))
    by_cases hx : x = ' '
    · rw [if_pos hx]
      show some s = some (dropOneSpace (x :: s))
      rw [show dropOneSpace (x :: s) = s from by rw [dropOneSpace, if_pos hx]]
    · rw [if_neg hx]
      show some (x :: s) = some (dropOneSpace (x :: s))
      rw [show dropOneSpace (x :: s) = x :: s from by rw [dropOneSpace, if_neg hx]]

theorem matchStarTab (s : List Char) :
    matchStar '\t' (matchAtoms [.opt ' ']) s =
      some (dropOneSpace (s.dropWhile (fun t => t = '\t'))) := by
  induction s with
  | nil => rfl
  | cons x s ih =>
    show (if x = '\t' then
        match matchStar '\t' (matchAtoms [.opt ' ']) s with
        | some r => some r
        | none => matchAtoms [.opt ' '] (x :: s)
      else matchAtoms [.opt ' '] (x :: s)) = _
    by_cases hx : x = '\t'
    · rw [if_pos hx, ih, List.dropWhile_cons_of_pos (by simp [hx])]
    · rw [if_neg hx, matchOptSpace, List.dropWhile_cons_of_neg (by simp [hx])]

theorem matchAtoms_strip (x : Char) (s : List Char) :
    matchAtoms [.lit '\n', .star '\t', .opt ' '] (x :: s) =
      if x = '\n' then some (dropOneSpace (s.dropWhile (fun t => t = '\t')))
      else none := by
  show (if x = '\n' then matchAtoms [.star '\t', .opt ' '] s else none) = _
  by_cases hx : x = '\n'
  · rw [if_pos hx, if_pos hx]
    show matchStar '\t' (matchAtoms [.opt ' ']) s = _
    rw [matchStarTab]
  · rw [if_neg hx, if_neg hx]

theorem dropWhileTab_length (s : List Char) :
    (s.dropWhile (fun t => t = '\t')).length ≤ s.length := by
  induction s with
  | nil => exact Nat.le_refl _
  | cons x s ih =>
    by_cases hx : x = '\t'
    · rw [List.dropWhile_cons_of_pos (by simp [hx])]
      simp only [List.length_cons]
      omega
    · rw [List.dropWhile_cons_of_neg (by simp [hx])]

theorem dropOneSpace_length (s : List Char) :
    (dropOneSpace s).length ≤ s.length := by
  cases s with
  | nil => exact Nat.le_refl _
  | cons x s =>
    rw [dropOneSpace]
    by_cases hx : x = ' '
    · rw [if_pos hx]
      simp only [List.length_cons]
      omega
    · rw [if_neg hx]

theorem collapseGo_true (s : List Char) :
    collapseGo true s =
      collapseGo false (dropOneSpace (s.dropWhile (fun t => t = '\t'))) := by
  induction s with
  | nil => rfl
  | cons x s ih =>
    show (if x = '\t' then collapseGo true s
      else if x = ' ' then collapseGo false s
      else if x = '\n' then collapseGo true s
      else x :: collapseGo false s) = _
    by_cases ht : x = '\t'
    · rw [if_pos ht, ih, List.dropWhile_cons_of_pos (by simp [ht])]
    · rw [if_neg ht, List.dropWhile_cons_of_neg (by simp [ht])]
      by_cases hsp : x = ' '
      · rw [if_pos hsp, show dropOneSpace (x :: s) = s from by
          rw [dropOneSpace, if_pos hsp]]
      · rw [if_neg hsp, show dropOneSpace (x :: s) = x :: s from by
          rw [dropOneSpace, if_neg hsp]]
        by_cases hn : x = '\n'
        · rw [if_pos hn]
          show _ = if x = '\n' then collapseGo true s else x :: collapseGo false s
          rw [if_pos hn]
        · rw [if_neg hn]
          show _ = if x = '\n' then collapseGo true s else x :: collapseGo false s
          rw [if_neg hn]

theorem replaceAllGo_strip_eq_collapse :
    ∀ (fuel : Nat) (s : List Char), s.length ≤ fuel →
      replaceAllGo [.lit '\n', .star '\t', .opt ' '] fuel s = collapseGo false s := by
  intro fuel
  induction fuel with
  | zero =>
    intro s hs
    have : s = [] := List.length_eq_zero.mp (Nat.le_zero.mp hs)
    subst this
    rfl
  | succ fuel ih =>
    intro s hs
    cases s with
    | nil => rfl
    | cons x s =>
      show (match matchAtoms [.lit '\n', .star '\t', .opt ' '] (x :: s) with
        | some r =>
            if r.length = s.length + 1 then
              x :: replaceAllGo [.lit '\n', .star '\t', .opt ' '] fuel s
            else replaceAllGo [.lit '\n', .star '\t', .opt ' '] fuel r
        | none => x :: replaceAllGo [.lit '\n', .star '\t', .opt ' '] fuel s) = _
      rw [matchAtoms_strip]
      by_cases hx : x = '\n'
      · rw [if_pos hx]
        have hlen : (dropOneSpace (s.dropWhile (fun t => t = '\t'))).length ≤ s.length :=
          Nat.le_trans (dropOneSpace_length _) (dropWhileTab_length s)
        show (if (dropOneSpace (s.dropWhile (fun t => t = '\t'))).length = s.length + 1
            then x :: replaceAllGo [.lit '\n', .star '\t', .opt ' '] fuel s
            else replaceAllGo [.lit '\n', .star '\t', .opt ' '] fuel
              (dropOneSpace (s.dropWhile (fun t => t = '\t')))) = _
        rw [if_neg (by omega)]
        rw [ih _ (by simp only [List.length_cons] at hs; omega)]
        show _ = collapseGo false (x :: s)
        rw [show collapseGo false (x :: s) =
            if x = '\n' then collapseGo true s else x :: collapseGo false s from rfl]
        rw [if_pos hx, collapseGo_true]
      · rw [if_neg hx]
        show x :: replaceAllGo [.lit '\n', .star '\t', .opt ' '] fuel s = _
        rw [ih s (by simp only [List.length_cons] at hs; omega)]
        show _ = if x = '\n' then collapseGo true s else x :: collapseGo false s
        rw [if_neg hx]

theorem replaceAll_strip_eq_collapse (s : List Char) :
    replaceAll [.lit '\n', .star '\t', .opt ' '] s = collapseRuns s :=
  replaceAllGo_strip_eq_collapse s.length s (Nat.le_refl _)

/-! ## Lemmas on catalog lookup -/

theorem busTrolleyRoutesLookup_mem (routes : List String) (isBus : Bool)
    (pinode : Nat) (id : String) (h : id ∈ routes) :
    busTrolleyRoutesLookup (newBusTrolleyRoutes routes isBus pinode) id =
      .ok (.route (newBusTrolleyRoute id (generateDynamicInode pinode id) isBus)) := by
  induction routes with
  | nil => cases h
  | cons a rest ih =>
    by_cases ha : a = id
    · subst ha
      simp only [busTrolleyRoutesLookup, newBusTrolleyRoutes, List.map_cons]
      rw [List.find?_cons_of_pos _ (by simp)]
    · have h2 : id ∈ rest := by
        cases h with
        | head => exact absurd rfl ha
        | tail _ h2 => exact h2
      simp only [busTrolleyRoutesLookup, newBusTrolleyRoutes, List.map_cons] at ih ⊢
      rw [List.find?_cons_of_neg _ (by simp [ha])]
      exact ih h2

theorem busTrolleyRoutesLookup_not_mem (routes : List String) (isBus : Bool)
    (pinode : Nat) (name : String) (h : name ∉ routes) :
    busTrolleyRoutesLookup (newBusTrolleyRoutes routes isBus pinode) name =
      .error .ENOENT := by
  induction routes with
  | nil => rfl
  | cons a rest ih =>
    have ha : ¬ a = name := fun e => h (e ▸ List.mem_cons_self a rest)
    have h2 : name ∉ rest := fun m => h (List.mem_cons_of_mem a m)
    simp only [busTrolleyRoutesLookup, newBusTrolleyRoutes, List.map_cons] at ih ⊢
    rw [List.find?_cons_of_neg _ (by simp [ha])]
    exact ih h2

/-! ## Totality of the stripping walk -/

mutual
theorem traverseHTML_ok : ∀ n : HNode, ∃ s, traverseHTML n = .ok s
  | .mk ty data children => by
    obtain ⟨b, hb⟩ := traverseForest_ok children
    simp only [traverseHTML, hb]
    exact ⟨_, rfl⟩

theorem traverseForest_ok : ∀ f : HForest, ∃ s, traverseForest f = .ok s
  | .nil => ⟨[], rfl⟩
  | .cons n f => by
    obtain ⟨t, ht⟩ := traverseHTML_ok n
    obtain ⟨r, hr⟩ := traverseForest_ok f
    simp only [traverseForest, ht, hr]
    exact ⟨_, rfl⟩
end

/-! ## Claim theorems -/

/-- C1, counterexample: reading the `locations` file for the single
position {lat 1, lng 2, direction "N", destination "Center City",
lastRead 5} does not return the exact bytes the claim states, because
`ReadAll` appends one extra newline after each `BusTrolley.String`
block (which already ends in a newline). -/
theorem C1_counterexample :
    busTrolleyLocationReadAll (.ok [⟨1, 2, 5, "N", "Center City"⟩]) ≠
      .ok "Latitude: 1.000000\nLongitude: 2.000000\nDirection: N\nDestination: Center City\nLastRead: 5 minutes ago\n" := by
  decide

/-- C1, amended: the `locations` content is the concatenation, in input
order, of one fixed-field block per position, each block followed by
one additional separator newline; for the single position
{1, 2, "N", "Center City", 5} the content ends in two newlines. -/
theorem C1_locations_blocks :
    (∀ fetched : List BusTrolley,
      busTrolleyLocationReadAll (.ok fetched) =
        .ok (String.join (fetched.map fun bt =>
          "Latitude: " ++ formatFloat6 bt.Lat ++
          "\nLongitude: " ++ formatFloat6 bt.Lng ++
          "\nDirection: " ++ bt.Direction ++
          "\nDestination: " ++ bt.Destination ++
          "\nLastRead: " ++ Int.repr bt.LastRead ++ " minutes ago\n" ++ "\n"))) ∧
    busTrolleyLocationReadAll (.ok [⟨1, 2, 5, "N", "Center City"⟩]) =
      .ok "Latitude: 1.000000\nLongitude: 2.000000\nDirection: N\nDestination: Center City\nLastRead: 5 minutes ago\n\n" := by
  constructor
  · intro fetched
    have h := busTrolleyLocationFormat_acc fetched ""
    rw [String.empty_append] at h
    exact congrArg Except.ok h
  · decide

/-- C5: the stripping walk renders a parse tree depth-first with
children in document order: a text node contributes its text with
every `newline, zero or more tabs, optional one space` run removed; a
`p` or `h3` element contributes its descendants' text plus exactly one
trailing newline; any other element contributes exactly its
descendants' text; and the parse tree of `<p>Hello\n\tworld</p>`
(document, html, head, body wrappers around the `p` element) renders
to `Helloworld\n`. -/
theorem C5_strip_walk :
    (∀ d : String, traverseHTML (.mk .text d .nil) = .ok (collapseRuns d.data)) ∧
    (∀ (tag : String) (children : HForest), tag = "p" ∨ tag = "h3" →
      traverseHTML (.mk .element tag children) =
        (traverseForest children).map (fun body => body ++ ['\n'])) ∧
    (∀ (tag : String) (children : HForest), ¬ (tag = "p" ∨ tag = "h3") →
      traverseHTML (.mk .element tag children) = traverseForest children) ∧
    (∀ (n : HNode) (f : HForest),
      traverseForest (.cons n f) =
        match traverseHTML n, traverseForest f with
        | .error e, _ => .error e
        | .ok _, .error e => .error e
        | .ok t, .ok r => .ok (t ++ r)) ∧
    traverseHTML (.mk .document ""
      (.cons (.mk .element "html"
        (.cons (.mk .element "head" .nil)
          (.cons (.mk .element "body"
            (.cons (.mk .element "p"
              (.cons (.mk .text "Hello\n\tworld" .nil) .nil)) .nil)) .nil))) .nil)) =
      .ok "Helloworld\n".data := by
  refine ⟨fun d => ?_, fun tag children htag => ?_, fun tag children htag => ?_,
    fun n f => ?_, by decide⟩
  · show Except.ok (replaceAll [.lit '\n', .star '\t', .opt ' '] d.data ++ [] ++ []) =
      Except.ok (collapseRuns d.data)
    rw [List.append_nil, List.append_nil, replaceAll_strip_eq_collapse]
  · show (match traverseForest children with
        | .error e => Except.error e
        | .ok body =>
            Except.ok (([] : List Char) ++ body ++
              if tag = "p" ∨ tag = "h3" then ['\n'] else [])) =
      (traverseForest children).map (fun body => body ++ ['\n'])
    cases traverseForest children with
    | error e => rfl
    | ok body =>
      show Except.ok (([] : List Char) ++ body ++
          if tag = "p" ∨ tag = "h3" then ['\n'] else []) = _
      rw [List.nil_append, if_pos htag]
      rfl
  · show (match traverseForest children with
        | .error e => Except.error e
        | .ok body =>
            Except.ok (([] : List Char) ++ body ++
              if tag = "p" ∨ tag = "h3" then ['\n'] else [])) =
      traverseForest children
    cases traverseForest children with
    | error e => rfl
    | ok body =>
      show Except.ok (([] : List Char) ++ body ++
          if tag = "p" ∨ tag = "h3" then ['\n'] else []) = _
      rw [List.nil_append, if_neg htag, List.append_nil]
  · show (match traverseHTML n with
        | .error e => Except.error e
        | .ok t =>
            match traverseForest f with
            | .error e => Except.error e
            | .ok r => Except.ok (t ++ r)) = _
    cases traverseHTML n with
    | error e => rfl
    | ok t =>
      cases traverseForest f with
      | error e => rfl
      | ok r => rfl

/-- C5, witness: the `p`/`h3` and other-element cases of `C5_strip_walk`
applied at concrete inputs. -/
theorem C5_strip_walk_witness :
    traverseHTML (.mk .element "p" .nil) = .ok ['\n'] ∧
    traverseHTML (.mk .element "div" .nil) = .ok [] :=
  ⟨(C5_strip_walk.2.1 "p" .nil (Or.inl rfl)).trans (by decide),
   (C5_strip_walk.2.2.1 "div" .nil (by decide)).trans (by decide)⟩

/-- C10: the stripping walk never returns an error: its only internal
error source is compiling the fixed pattern `"\n\t* ?"`, which
succeeds, so every traversal returns some rendered text, and a
markup-stripping failure can only come from parsing the input string
into a tree. -/
theorem C10_no_strip_error :
    compileAtoms stripPattern = .ok [.lit '\n', .star '\t', .opt ' '] ∧
    (∀ n : HNode, ∃ s, traverseHTML n = .ok s) ∧
    (∀ (parse : String → Except String HNode) (s : String),
      (∃ t, stripHTML parse s = .ok t) ∨
      (∃ e, stripHTML parse s = .error e ∧ parse s = .error e)) := by
  refine ⟨rfl, traverseHTML_ok, fun parse s => ?_⟩
  cases hp : parse s with
  | error e =>
    right
    refine ⟨e, ?_, rfl⟩
    simp only [stripHTML, hp]
  | ok n =>
    left
    obtain ⟨t, ht⟩ := traverseHTML_ok n
    refine ⟨t, ?_⟩
    simp only [stripHTML, hp, ht]

/-- C4: the `alerts` content is exactly the current-alerts header, the
current messages in input order joined by single newlines with no
trailing newline, then the advisories header and the advisory messages
likewise; checked both in general and on the two-alert example. -/
theorem C4_alerts_sections :
    (∀ rts : List RouteAlert,
      routeAlertsFormat rts =
        "CURRENT ALERTS:\n\n" ++ joinByNewline (rts.map (·.CurrentMessage)) ++
        "ADVISORIES:\n\n" ++ joinByNewline (rts.map (·.AdvisoryMessage))) ∧
    routeAlertsFormat [⟨"r1", "A", "X"⟩, ⟨"r2", "B", "Y"⟩] =
      "CURRENT ALERTS:\n\nA\nB" ++ "ADVISORIES:\n\nX\nY" := by
  refine ⟨fun rts => ?_, by decide⟩
  show "CURRENT ALERTS:\n\n" ++
      alertMessagesLoop (·.CurrentMessage) rts.length 0 rts ++
      "ADVISORIES:\n\n" ++
      alertMessagesLoop (·.AdvisoryMessage) rts.length 0 rts = _
  rw [alertMessagesLoop_eq_join _ rts 0 rts.length (Nat.zero_add _),
    alertMessagesLoop_eq_join _ rts 0 rts.length (Nat.zero_add _)]

/-- C2, evaluated at the divergent nodes: the root and route directories
report `0o555` and the file nodes `0o444` as the claim says, but both
catalog directories (`trolley`, `bus`) report permission bits `0o55`
(`os.ModeDir | 055` in the source, a two-digit octal literal), which is
not the claimed read+execute-for-all `0o555`; the owner class has no
access bits there. -/
theorem C2_attr_modes :
    busTrolleyRoutesAttr septaRoot.trolleyNode =
      { inode := 2, isDir := true, perm := 0o55 } ∧
    busTrolleyRoutesAttr septaRoot.busNode =
      { inode := 3, isDir := true, perm := 0o55 } ∧
    (0o55 : Nat) ≠ 0o555 ∧
    rootDirAttr = { inode := 1, isDir := true, perm := 0o555 } ∧
    (∀ r : busTrolleyRoute, busTrolleyRouteAttr r =
      { inode := r.inode, isDir := true, perm := 0o555 }) ∧
    (∀ v : busTrolleyLocation, busTrolleyLocationAttr v =
      { inode := v.inode, isDir := false, perm := 0o444 }) ∧
    (∀ a : routeAlerts, routeAlertsAttr a =
      { inode := a.inode, isDir := false, perm := 0o444 }) :=
  ⟨rfl, rfl, by decide, rfl, fun _ => rfl, fun _ => rfl, fun _ => rfl⟩

/-- C3, evaluated at the failing decode outcome: when `json.Unmarshal`
reports an error but has partially filled the alert slice (as Go's
decoder does on an element type error), the strip loop of
`RouteAlerts` overwrites the unchecked `err` and the function returns
a nil error, contradicting the claim; only when the slice stays empty
does the decode error survive to the caller. -/
theorem C3_decode_error_masked :
    routeAlertsErrFlow (fun _ => .ok (.mk .text "x" .nil))
      { alerts := [{ RouteName := "r", CurrentMessage := "a", AdvisoryMessage := "b" },
                   { RouteName := "", CurrentMessage := "", AdvisoryMessage := "" }],
        unmarshalErr :=
          some "json: cannot unmarshal number into Go value of type septa.RouteAlert" } =
      none ∧
    routeAlertsErrFlow (fun _ => .ok (.mk .text "x" .nil))
      { alerts := [], unmarshalErr := some "unexpected end of JSON input" } =
      some "unexpected end of JSON input" :=
  ⟨by decide, by decide⟩

/-- C6: for every route identifier in the trolley catalog, looking up
`trolley` at the root and then the identifier both succeed, and the
route directory lists exactly `locations` then `alerts`, both files. -/
theorem C6_trolley_route_listing :
    ∀ id ∈ tRouteIDs,
      rootDirLookup septaRoot "trolley" = .ok (.routes septaRoot.trolleyNode) ∧
      busTrolleyRoutesLookup septaRoot.trolleyNode id =
        .ok (.route (newBusTrolleyRoute id (generateDynamicInode 2 id) false)) ∧
      busTrolleyRouteReadDir (newBusTrolleyRoute id (generateDynamicInode 2 id) false) =
        [{ name := "locations", type := .file }, { name := "alerts", type := .file }] := by
  intro id hid
  exact ⟨rfl, busTrolleyRoutesLookup_mem tRouteIDs false 2 id hid, rfl⟩

/-- C6, witness: the chain evaluated at route `10`. -/
theorem C6_trolley_route_listing_witness :
    rootDirLookup septaRoot "trolley" = .ok (.routes septaRoot.trolleyNode) ∧
    busTrolleyRoutesLookup septaRoot.trolleyNode "10" =
      .ok (.route (newBusTrolleyRoute "10" (generateDynamicInode 2 "10") false)) ∧
    busTrolleyRouteReadDir (newBusTrolleyRoute "10" (generateDynamicInode 2 "10") false) =
      [{ name := "locations", type := .file }, { name := "alerts", type := .file }] :=
  C6_trolley_route_listing "10" (by decide)

/-- C7: every unrecognized name fails with `ENOENT`: at the root any
name other than `trolley`/`bus`, in a catalog directory any identifier
not in its catalog (exact match), and in a route directory any name
other than `locations`/`alerts`. -/
theorem C7_lookup_unknown_enoent :
    (∀ name : String, name ≠ "trolley" → name ≠ "bus" →
      rootDirLookup septaRoot name = .error .ENOENT) ∧
    (∀ name : String, name ∉ tRouteIDs →
      busTrolleyRoutesLookup septaRoot.trolleyNode name = .error .ENOENT) ∧
    (∀ name : String, name ∉ bRouteIDs →
      busTrolleyRoutesLookup septaRoot.busNode name = .error .ENOENT) ∧
    (∀ (r : busTrolleyRoute) (name : String), name ≠ "locations" → name ≠ "alerts" →
      busTrolleyRouteLookup r name = .error .ENOENT) := by
  refine ⟨fun name h1 h2 => ?_,
    fun name h => busTrolleyRoutesLookup_not_mem tRouteIDs false 2 name h,
    fun name h => busTrolleyRoutesLookup_not_mem bRouteIDs true 3 name h,
    fun r name h1 h2 => ?_⟩
  · simp only [rootDirLookup]
    rw [if_neg h1, if_neg h2]
  · simp only [busTrolleyRouteLookup]
    rw [if_neg h1, if_neg h2]

/-- C7, witness: `ENOENT` at each level for concrete unknown names; in
particular a trolley identifier is not found under `bus` and a bus
identifier is not found under `trolley`, and matching is
case-sensitive. -/
theorem C7_lookup_unknown_enoent_witness :
    rootDirLookup septaRoot "routes" = .error .ENOENT ∧
    busTrolleyRoutesLookup septaRoot.trolleyNode "99" = .error .ENOENT ∧
    busTrolleyRoutesLookup septaRoot.busNode "10" = .error .ENOENT ∧
    busTrolleyRouteLookup (newBusTrolleyRoute "10" (generateDynamicInode 2 "10") false)
      "Locations" = .error .ENOENT :=
  ⟨C7_lookup_unknown_enoent.1 "routes" (by decide) (by decide),
   C7_lookup_unknown_enoent.2.1 "99" (by decide),
   C7_lookup_unknown_enoent.2.2.1 "10" (by decide),
   C7_lookup_unknown_enoent.2.2.2 _ "Locations" (by decide) (by decide)⟩

/-- C8: a position record whose `lat`/`lng`/`Offset` strings parse as
float, float and integer decodes to exactly those numeric values with
the plain fields passed through; if any of the three fails to parse,
decoding fails with an error; checked in general and at the concrete
records of the claim. -/
theorem C8_position_decode :
    (∀ (w : BusTrolleyWire) (la ln : ℚ) (off : ℤ),
      parseFloatQ w.lat = some la → parseFloatQ w.lng = some ln →
      atoiModel w.Offset = some off →
      busTrolleyUnmarshal w =
        .ok { Lat := la, Lng := ln, LastRead := off,
              Direction := w.direction, Destination := w.destination }) ∧
    (∀ w : BusTrolleyWire,
      parseFloatQ w.lat = none ∨ parseFloatQ w.lng = none ∨ atoiModel w.Offset = none →
      ∃ e, busTrolleyUnmarshal w = .error e) ∧
    busTrolleyUnmarshal
      { lat := "39.95", lng := "-75.16", Offset := "3",
        direction := "NorthBound", destination := "Center City" } =
      .ok { Lat := Rat.divInt 3995 100, Lng := Rat.divInt (-7516) 100, LastRead := 3,
            Direction := "NorthBound", Destination := "Center City" } ∧
    (∃ e, busTrolleyUnmarshal
      { lat := "not a number", lng := "-75.16", Offset := "3",
        direction := "N", destination := "D" } = .error e) := by
  refine ⟨fun w la ln off h1 h2 h3 => ?_, fun w h => ?_, by decide,
    ⟨"DecodeError: invalid lat", by decide⟩⟩
  · simp only [busTrolleyUnmarshal, h1, h2, h3]
  · rcases h with h | h | h
    · simp only [busTrolleyUnmarshal, h]
      exact ⟨_, rfl⟩
    · cases hl : parseFloatQ w.lat with
      | none =>
        simp only [busTrolleyUnmarshal, hl]
        exact ⟨_, rfl⟩
      | some la =>
        simp only [busTrolleyUnmarshal, hl, h]
        exact ⟨_, rfl⟩
    · cases hl : parseFloatQ w.lat with
      | none =>
        simp only [busTrolleyUnmarshal, hl]
        exact ⟨_, rfl⟩
      | some la =>
        cases hg : parseFloatQ w.lng with
        | none =>
          simp only [busTrolleyUnmarshal, hl, hg]
          exact ⟨_, rfl⟩
        | some ln =>
          simp only [busTrolleyUnmarshal, hl, hg, h]
          exact ⟨_, rfl⟩

/-- C8, witness: the success case of `C8_position_decode` applied at a
concrete record, and the failure case at a record with a non-numeric
`lat`. -/
theorem C8_position_decode_witness :
    busTrolleyUnmarshal
      { lat := "1.5", lng := "2", Offset := "7",
        direction := "N", destination := "D" } =
      .ok { Lat := Rat.divInt 3 2, Lng := 2, LastRead := 7,
            Direction := "N", Destination := "D" } ∧
    (∃ e, busTrolleyUnmarshal
      { lat := "x", lng := "2", Offset := "7",
        direction := "N", destination := "D" } = .error e) :=
  ⟨C8_position_decode.1 _ (Rat.divInt 3 2) 2 7 (by decide) (by decide) (by decide),
   C8_position_decode.2.1 _ (Or.inl (by decide))⟩

set_option maxRecDepth 8000 in
set_option maxHeartbeats 4000000 in
/-- C9: in the tree built from the fixed catalogs, the inodes of the
root, the two catalog directories, every route directory and every
`locations`/`alerts` file are pairwise distinct. -/
theorem C9_inodes_distinct : allInodes.Nodup := by
  decide

end Septa
